import Mathlib

/-!
# Marathon certificate page (`script.js`)

A shallow embedding of the page script: the module variables `participants`
and `dataLoaded`, the four DOM elements the script touches, and the functions
`performCertificateSearch`, `generateCertificate`, `drawCertificate`,
`drawAutoSizedText`, `downloadCertificate`, `showMessage`, `showLoading`,
`hideLoading`, `clearResults` and `loadParticipants`.

Conventions of the embedding.

* JavaScript strings are Lean `String`s. `trim` strips the ECMAScript
  white-space and line-terminator code points. `String.prototype.toUpperCase`
  is the host's: it is a parameter, a `CaseMapping`, and every theorem holds
  for every such mapping.
* Values that come out of `JSON.parse` are `JSValue`s; `participants` is any
  such value, since `loadParticipants` stores what it is given.
* Font sizes are IEEE doubles. Every double from 16 up is a whole number of
  units of `2 ^ -48` px, so a size is a `Nat` count of such units, `px n` is
  `n` px, and `fontSize -= 2` rounds to 53 significant bits, ties to even
  (`round53`).
* The script is single-threaded: an `async` function runs to completion
  between two suspension points, so the 800 ms pause of
  `performCertificateSearch` is a recorded step of one function, and the
  image and timer callbacks registered by `generateCertificate` are run
  afterwards, one `Callback` at a time.
* Whether a host primitive throws is an input of the model (`setupThrows`,
  `Fault`).
* `State.calls` is a ghost trace of the functions entered; `State.downloads`
  are the file names handed to the browser for saving.
-/

namespace Marathon

/-! ## Strings -/

/-- The code points removed by `String.prototype.trim`: ECMAScript `WhiteSpace`
and `LineTerminator`. -/
def isWhiteSpace (c : Char) : Bool :=
  c.toNat ∈ [9, 10, 11, 12, 13, 32, 160, 5760, 8192, 8193, 8194, 8195, 8196, 8197, 8198,
    8199, 8200, 8201, 8202, 8232, 8233, 8239, 8287, 12288, 65279]

/-- `s.trim()`. -/
def trim (s : String) : String :=
  ⟨((s.data.dropWhile isWhiteSpace).reverse.dropWhile isWhiteSpace).reverse⟩

/-- `String.prototype.toUpperCase`, whose case tables belong to the host, as a
parameter, with the three facts about it that are used: on a string of ASCII
characters it maps `a`..`z` to `A`..`Z` and nothing else; only the empty
string is mapped to the empty string; and it maps white space to itself and
nothing else to white space, so that it commutes with `trim`. -/
structure CaseMapping where
  toUpperCase : String → String
  ascii : ∀ s : String, (∀ c ∈ s.data, c.toNat < 128) →
    toUpperCase s = ⟨s.data.map Char.toUpper⟩
  empty_iff : ∀ s : String, toUpperCase s = "" ↔ s = ""
  trim_comm : ∀ s : String, toUpperCase (trim s) = trim (toUpperCase s)

/-- The mapping that changes the ASCII letters only: one `CaseMapping`, used
at inputs made of ASCII characters, where every `CaseMapping` agrees with it. -/
def asciiCase : CaseMapping where
  toUpperCase := fun s => ⟨s.data.map Char.toUpper⟩
  ascii := fun _ _ => rfl
  empty_iff := by
    intro s
    constructor
    · intro h
      have h2 : s.data.map Char.toUpper = [] := congrArg String.data h
      exact String.ext (by simpa using h2)
    · rintro rfl; rfl
  trim_comm := by
    intro s
    have hws : ∀ c : Char, isWhiteSpace c.toUpper = isWhiteSpace c := by
      intro c
      unfold Char.toUpper
      simp only
      split
      · rename_i h
        obtain ⟨h1, h2⟩ := h
        have hc : isWhiteSpace c = false := by
          unfold isWhiteSpace
          generalize c.toNat = n at h1 h2
          interval_cases n <;> decide
        rw [hc]
        generalize c.toNat = n at h1 h2
        interval_cases n <;> decide
      · rfl
    have hdrop : ∀ l : List Char, (l.map Char.toUpper).dropWhile isWhiteSpace =
        (l.dropWhile isWhiteSpace).map Char.toUpper := by
      intro l
      induction l with
      | nil => rfl
      | cons c cs ih =>
        simp only [List.map_cons, List.dropWhile_cons, hws]
        split
        · exact ih
        · rfl
    unfold trim
    simp only [← List.map_reverse, hdrop]

/-! ## Parsed JSON -/

/-- A JavaScript value as `JSON.parse` produces it, plus `undefined` (the
result of reading a property that is not there). A number is kept as the text
`String(n)` gives for it. -/
inductive JSValue where
  | undefined
  | null
  | bool (b : Bool)
  | num (text : String)
  | str (s : String)
  | arr (items : List JSValue)
  | obj (fields : List (String × JSValue))

mutual
/-- `String(v)`, the conversion a template literal applies. -/
def JSValue.toStr : JSValue → String
  | .undefined => "undefined"
  | .null => "null"
  | .bool true => "true"
  | .bool false => "false"
  | .num t => t
  | .str s => s
  | .arr xs => joinItems xs
  | .obj _ => "[object Object]"
termination_by structural v => v
/-- `Array.prototype.join` with the default separator. -/
def joinItems : List JSValue → String
  | [] => ""
  | x :: xs =>
    (match x with
      | .undefined => ""
      | .null => ""
      | v => JSValue.toStr v) ++ (match xs with | [] => "" | _ => ",") ++ joinItems xs
termination_by structural l => l
end

/-- `null` or `undefined`: the values on which a property read throws. -/
def JSValue.isNullish : JSValue → Bool
  | .undefined => true
  | .null => true
  | _ => false

/-- The property read `v.key` for a key that is no built-in property (the
script reads `bib` and `name`): a `TypeError` on `null` and `undefined`, the
stored value on an object that has the key, `undefined` otherwise. -/
def JSValue.get (v : JSValue) (key : String) : Except Unit JSValue :=
  match v with
  | .undefined => .error ()
  | .null => .error ()
  | .obj fields => .ok ((fields.lookup key).getD .undefined)
  | _ => .ok .undefined

/-- `v === s` for a string `s`. -/
def JSValue.strictEqStr (v : JSValue) (s : String) : Bool :=
  match v with
  | .str t => t == s
  | _ => false

/-- The iteration of `Array.prototype.find` with the callback
`p => p.bib === bibNumber`: the first element whose `bib` is the string
`bibNumber`; a `TypeError` from the callback ends the scan. -/
def findLoop (bibNumber : String) : List JSValue → Except Unit (Option JSValue)
  | [] => .ok none
  | p :: ps =>
    match p.get "bib" with
    | .error e => .error e
    | .ok b => if b.strictEqStr bibNumber then .ok (some p) else findLoop bibNumber ps

/-- `participants.find(p => p.bib === bibNumber)`: on anything but an array
`participants.find` is not a function and the call throws. -/
def find (participants : JSValue) (bibNumber : String) : Except Unit (Option JSValue) :=
  match participants with
  | .arr items => findLoop bibNumber items
  | _ => .error ()

/-- A participant record of the expected format
`{"name": ..., "bib": ..., "category": ...}`. -/
structure ParticipantRecord where
  name : String
  bib : String
  category : String
deriving DecidableEq, Repr

/-- The record as the JSON object it is loaded from. -/
def ParticipantRecord.toJS (r : ParticipantRecord) : JSValue :=
  .obj [("name", .str r.name), ("bib", .str r.bib), ("category", .str r.category)]

/-- A list of records as the array it is loaded from. -/
def directory (records : List ParticipantRecord) : JSValue :=
  .arr (records.map ParticipantRecord.toJS)

/-! ## Page state -/

/-- The three branches of `showMessage` (lines 183-204). -/
inductive Kind where
  | warning
  | error
  | success
deriving DecidableEq, Repr

/-- The values a branch of `showMessage` assigns. -/
structure Styling where
  bgColor : String
  borderColor : String
  textColor : String
  icon : String

/-- Lines 183-204. -/
def styling : Kind → Styling
  | .error =>
    { bgColor := "bg-red-50", borderColor := "border-red-200", textColor := "text-red-800",
      icon := "<svg class=\"w-5 h-5 text-red-500 flex-shrink-0\" fill=\"currentColor\" viewBox=\"0 0 20 20\">\n            <path fill-rule=\"evenodd\" d=\"M10 18a8 8 0 100-16 8 8 0 000 16zM8.707 7.293a1 1 0 00-1.414 1.414L8.586 10l-1.293 1.293a1 1 0 101.414 1.414L10 11.414l1.293 1.293a1 1 0 001.414-1.414L11.414 10l1.293-1.293a1 1 0 00-1.414-1.414L10 8.586 8.707 7.293z\" clip-rule=\"evenodd\"/>\n        </svg>" }
  | .success =>
    { bgColor := "bg-green-50", borderColor := "border-green-200", textColor := "text-green-800",
      icon := "<svg class=\"w-5 h-5 text-green-500 flex-shrink-0\" fill=\"currentColor\" viewBox=\"0 0 20 20\">\n            <path fill-rule=\"evenodd\" d=\"M10 18a8 8 0 100-16 8 8 0 000 16zm3.707-9.293a1 1 0 00-1.414-1.414L9 10.586 7.707 9.293a1 1 0 00-1.414 1.414l2 2a1 1 0 001.414 0l4-4z\" clip-rule=\"evenodd\"/>\n        </svg>" }
  | .warning =>
    { bgColor := "bg-yellow-50", borderColor := "border-yellow-200",
      textColor := "text-yellow-800", icon := "<svg class=\"w-5 h-5 text-yellow-500 flex-shrink-0\" fill=\"currentColor\" viewBox=\"0 0 20 20\">\n            <path fill-rule=\"evenodd\" d=\"M8.257 3.099c.765-1.36 2.722-1.36 3.486 0l5.58 9.92c.75 1.334-.213 2.98-1.742 2.98H4.42c-1.53 0-2.493-1.646-1.743-2.98l5.58-9.92zM11 13a1 1 0 11-2 0 1 1 0 012 0zm-1-8a1 1 0 00-1 1v3a1 1 0 002 0V6a1 1 0 00-1-1z\" clip-rule=\"evenodd\"/>\n        </svg>" }

/-- A child of `resultsContainer`, the `div` built by `showMessage`, given by
the two values its markup is made from: the branch taken and the message. -/
structure Notification where
  message : String
  kind : Kind
deriving DecidableEq, Repr

/-- The markup assigned to the `innerHTML` of the child (lines 206-213). The
message goes in as it is, unescaped: what the page shows is what the browser
parses out of this markup. -/
def Notification.innerHTML (n : Notification) : String :=
  "\n        <div class=\"bg-white rounded-lg shadow-sm border-2 " ++ (styling n.kind).borderColor ++
    " p-4 sm:p-5\">\n            <div class=\"flex items-start gap-3\">\n                " ++
    (styling n.kind).icon ++
    "\n                <p class=\"text-xs sm:text-sm font-medium " ++ (styling n.kind).textColor ++
    "\">" ++ n.message ++ "</p>\n            </div>\n        </div>\n    "

/-- Entries of the ghost call trace. -/
inductive Call where
  | showLoading
  | delay (ms : Nat)
  | find (bibNumber : String)
  | generateCertificate
  | drawCertificate (withImage : Bool)
  | fillText (text : String) (fontSize : Nat)
  | downloadCertificate (filename : String)
deriving DecidableEq, Repr

/-- Module variables, the DOM elements of lines 6-9, and the observable
effects. -/
structure State where
  participants : JSValue
  dataLoaded : Bool
  results : List Notification
  searchBtnDisabled : Bool
  spinnerHidden : Bool
  bibInputDisabled : Bool
  downloads : List String
  calls : List Call

/-- Lines 2-3: `let participants = []; let dataLoaded = false;`. -/
def moduleInit (page : State) : State :=
  { page with participants := .arr [], dataLoaded := false }

/-- Appends an entry to the ghost call trace. -/
def State.called (s : State) (c : Call) : State :=
  { s with calls := s.calls ++ [c] }

/-- The busy state is cleared: button and input enabled, spinner hidden. -/
def State.idle (s : State) : Prop :=
  s.searchBtnDisabled = false ∧ s.bibInputDisabled = false ∧ s.spinnerHidden = true

instance (s : State) : Decidable s.idle :=
  inferInstanceAs (Decidable (_ ∧ _ ∧ _))

/-- `clearResults()`. -/
def clearResults (s : State) : State :=
  { s with results := [] }

/-- The test that picks the branch of `showMessage`. -/
def kindOf (type : String) : Kind :=
  if type = "error" then .error
  else if type = "success" then .success
  else .warning

/-- `showMessage(message, type)`: the container is emptied and gets one child,
whose `innerHTML` is `Notification.innerHTML`. -/
def showMessage (s : State) (message type : String) : State :=
  let s := clearResults s
  let messageDiv : Notification := ⟨message, kindOf type⟩
  { s with results := s.results ++ [messageDiv] }

/-- `showLoading()`. -/
def showLoading (s : State) : State :=
  let s := clearResults (s.called .showLoading)
  { s with searchBtnDisabled := true, spinnerHidden := false, bibInputDisabled := true }

/-- `hideLoading()`. -/
def hideLoading (s : State) : State :=
  { s with searchBtnDisabled := false, spinnerHidden := true, bibInputDisabled := false }

/-! ## Loading the participants -/

/-- What `fetch('participants.json')` and `response.json()` can do. -/
inductive FetchOutcome where
  | fetchThrows
  | notOk
  | jsonThrows
  | parsed (data : JSValue)

/-- `loadParticipants()`. When the body parses, both assignments of lines
241-242 are made, and then the log line reads `participants.length`: on
`null` that read throws and the `catch` of lines 248-252 runs, with the
parsed value already stored. -/
def loadParticipants (s : State) : FetchOutcome → State
  | .fetchThrows => { s with dataLoaded := true }
  | .notOk => { s with dataLoaded := true }
  | .jsonThrows => { s with dataLoaded := true }
  | .parsed data =>
    let s := { s with participants := data, dataLoaded := true }
    if data.isNullish then { s with dataLoaded := true } else s

/-! ## Text layout -/

/-- The font size of `n` px, in units of `2 ^ -48` px. -/
def px (n : Nat) : Nat := n * 2 ^ 48

/-- The number of low bits `n` has beyond 53 significant ones. -/
def excessBits (n : Nat) : Nat → Nat
  | 0 => 0
  | fuel + 1 => if n < 2 ^ 53 then 0 else excessBits (n / 2) fuel + 1

/-- Rounding to a double: to 53 significant bits, to nearest, ties to the
even significand. -/
def round53 (n : Nat) : Nat :=
  let e := excessBits n n
  let q := n / 2 ^ e
  let r := n % 2 ^ e
  if 2 * r < 2 ^ e then q * 2 ^ e
  else if 2 ^ e < 2 * r then (q + 1) * 2 ^ e
  else if q % 2 = 0 then q * 2 ^ e
  else (q + 1) * 2 ^ e

/-- The loop of `drawAutoSizedText` (lines 148-151), with `width fontSize` the
value of `ctx.measureText(text).width` while the font is `fontSize`, and
`fuel` the number of times the loop condition may be evaluated: `none` when
that is not enough for the loop to end. The result is the font size in effect
at `ctx.fillText`. -/
def shrinkLoop {W : Type} [LinearOrder W] (width : Nat → W) (maxWidth : W) :
    Nat → Nat → Option Nat
  | 0, _ => none
  | fuel + 1, fontSize =>
    if width fontSize > maxWidth ∧ fontSize > px 16 then
      shrinkLoop width maxWidth fuel (round53 (fontSize - px 2))
    else some fontSize

/-- `drawAutoSizedText(ctx, text, x, y, maxWidth, maxFontSize)`. -/
def drawAutoSizedText {W : Type} [LinearOrder W] (fuel : Nat) (width : Nat → W) (maxWidth : W)
    (maxFontSize : Nat) : Option Nat :=
  shrinkLoop width maxWidth fuel maxFontSize

/-! ## Rendering -/

/-- Where the `try` block of `drawCertificate` throws, if it does: in a canvas
drawing call, or in `downloadCertificate`. -/
inductive Fault where
  | none
  | drawing
  | exporting
deriving DecidableEq, Repr

/-- The download name of line 159. -/
def certificateFilename (bibNumber : JSValue) : String :=
  "Sadri-Marathon-2025-Certificate-Bib-" ++ bibNumber.toStr ++ ".png"

/-- `downloadCertificate(canvas, bibNumber)`: `.error` is the rethrown
`Error`, carrying the state reached. -/
def downloadCertificate (exportThrows : Bool) (s : State) (bibNumber : JSValue) :
    Except State State :=
  let s := s.called (.downloadCertificate (certificateFilename bibNumber))
  if exportThrows then .error s
  else .ok { s with downloads := s.downloads ++ [certificateFilename bibNumber] }

/-- The `try` block of `drawCertificate`; `.error` carries the state at the
throw. The call of `drawAutoSizedText` starts from 36 px, from where the
eleven evaluations of the loop condition allowed here always suffice
(`drawAutoSizedText_call_returns`), so its `none` branch is never taken. -/
def drawCertificateTry (measureText : String → Nat → ℚ) (fault : Fault) (s : State)
    (participant : JSValue) : Except State State :=
  if fault = .drawing then .error s
  else
    match participant.get "name" with
    | .error _ => .error s
    | .ok name =>
      match drawAutoSizedText 11 (measureText name.toStr) 300 (px 36) with
      | none => .error s
      | some fontSize =>
        let s := s.called (.fillText name.toStr fontSize)
        match participant.get "bib" with
        | .error _ => .error s
        | .ok bib =>
          match downloadCertificate (fault = .exporting) s bib with
          | .error s => .error s
          | .ok s =>
            .ok (showMessage (hideLoading s) "Certificate downloaded successfully!" "success")

/-- `drawCertificate(ctx, canvas, bgImage, participant)`; `withImage` tells
whether `bgImage` is the loaded image or `null`. -/
def drawCertificate (measureText : String → Nat → ℚ) (fault : Fault) (s : State)
    (withImage : Bool) (participant : JSValue) : State :=
  match drawCertificateTry measureText fault (s.called (.drawCertificate withImage))
      participant with
  | .ok s => s
  | .error s =>
    showMessage (hideLoading s) "Failed to create certificate. Please try again." "error"

/-- The closure of a `generateCertificate` call that has registered its
callbacks. -/
structure Render where
  participant : JSValue
  backgroundLoaded : Bool

/-- `generateCertificate(participant)` up to its return. `setupThrows`: the
canvas lookup or `clearRect` throws, before any callback is registered. -/
def generateCertificate (setupThrows : Bool) (s : State) (participant : JSValue) :
    State × Option Render :=
  let s := s.called .generateCertificate
  if setupThrows then
    (showMessage (hideLoading s) "Failed to generate certificate. Please try again." "error", none)
  else
    (s, some ⟨participant, false⟩)

/-- The callbacks `generateCertificate` registers, each with the fault of the
drawing it may start. -/
inductive Callback where
  | onload (fault : Fault)
  | onerror (fault : Fault)
  | timeout (fault : Fault)
deriving DecidableEq, Repr

/-- One callback runs. -/
def fire (measureText : String → Nat → ℚ) (sr : State × Render) : Callback → State × Render
  | .onload fault =>
    (drawCertificate measureText fault sr.1 true sr.2.participant,
      { sr.2 with backgroundLoaded := true })
  | .onerror fault =>
    (drawCertificate measureText fault sr.1 false sr.2.participant, sr.2)
  | .timeout fault =>
    if !sr.2.backgroundLoaded then
      (drawCertificate measureText fault sr.1 false sr.2.participant, sr.2)
    else sr

/-- The callbacks run in the order given. -/
def runCallbacks (measureText : String → Nat → ℚ) (sr : State × Render)
    (callbacks : List Callback) : State × Render :=
  callbacks.foldl (fire measureText) sr

/-- The orders the browser can produce: the timer fires once, and the image
fires `load` or `error` at most once. -/
def schedule (callbacks : List Callback) : Bool :=
  callbacks.countP (fun c => match c with | .timeout _ => true | _ => false) == 1 &&
  callbacks.countP (fun c => match c with | .timeout _ => false | _ => true) ≤ 1

/-! ## The search -/

/-- `performCertificateSearch()` up to the settlement of its promise, with
`value` the content of `bibInput`. -/
def performCertificateSearch (U : CaseMapping) (setupThrows : Bool) (s : State)
    (value : String) : State × Option Render :=
  let bibNumber := U.toUpperCase (trim value)
  if bibNumber = "" then
    (showMessage s "Please enter a Bib Number to search" "warning", none)
  else if !s.dataLoaded then
    (showMessage s
      "Participant data is still loading. Please wait a moment and try again." "warning", none)
  else
    let s := (showLoading s).called (.delay 800)
    match find s.participants bibNumber with
    | .error _ =>
      (showMessage (hideLoading (s.called (.find bibNumber)))
        "An error occurred while generating your certificate. Please try again or contact support."
        "error", none)
    | .ok none =>
      (showMessage (hideLoading (s.called (.find bibNumber)))
        ("No participant found with Bib Number \"" ++ bibNumber ++
          "\". Please verify your Bib Number and try again.") "error",
        none)
    | .ok (some participant) =>
      generateCertificate setupThrows (s.called (.find bibNumber)) participant

/-- A whole search: `performCertificateSearch` and then the callbacks of the
render it started, if it started one. -/
def search (U : CaseMapping) (measureText : String → Nat → ℚ) (setupThrows : Bool) (s : State)
    (value : String) (callbacks : List Callback) : State :=
  match performCertificateSearch U setupThrows s value with
  | (s, none) => s
  | (s, some r) => (runCallbacks measureText (s, r) callbacks).1

/-- The number of `drawCertificate` entries in a call trace. -/
def drawCount (calls : List Call) : Nat :=
  calls.countP (fun c => match c with | .drawCertificate _ => true | _ => false)

/-- A page before any search, holding `participants`, loaded. -/
def loadedPage (participants : JSValue) : State :=
  { participants := participants, dataLoaded := true, results := [],
    searchBtnDisabled := false, spinnerHidden := true, bibInputDisabled := false,
    downloads := [], calls := [] }

/-- A page before any search, with a loaded directory of records. -/
def readyPage (records : List ParticipantRecord) : State :=
  loadedPage (directory records)

/-- The sizes the spec lets the layout choose from:
`maxFontSize, maxFontSize - 2, ..., 16`, in px. -/
def candidateSizes (maxFontSize : Nat) : List Nat :=
  (List.range ((maxFontSize - 16) / 2 + 1)).map (fun i => maxFontSize - 2 * i)

/-- The fault a callback carries. -/
def Callback.fault : Callback → Fault
  | .onload f => f
  | .onerror f => f
  | .timeout f => f

/-- The record of the end-to-end scenario. -/
def janeDoe : ParticipantRecord := ⟨"Jane Doe", "001", "5K"⟩

/-- A text 10 px wide per font px at every size. -/
def tenPerPx (_text : String) (fontSize : Nat) : ℚ := ((10 * fontSize / 2 ^ 48 : Nat) : ℚ)


/-! ## Text layout: the shrink loop -/

theorem mem_candidateSizes (m n : Nat) :
    n ∈ candidateSizes m ↔ ∃ i, i ≤ (m - 16) / 2 ∧ n = m - 2 * i := by
  unfold candidateSizes
  simp only [List.mem_map, List.mem_range]
  constructor
  · rintro ⟨i, hi, rfl⟩
    exact ⟨i, by omega, rfl⟩
  · rintro ⟨i, hi, rfl⟩
    exact ⟨i, by omega, rfl⟩

theorem excessBits_le (k : Nat) :
    ∀ fuel n : Nat, n < 2 ^ (53 + k) → excessBits n fuel ≤ k := by
  induction k with
  | zero =>
    intro fuel n h
    cases fuel with
    | zero => exact le_of_eq rfl
    | succ f =>
      have h53 : n < 2 ^ 53 := h
      simp only [excessBits, if_pos h53]
      exact le_refl 0
  | succ k ih =>
    intro fuel n h
    cases fuel with
    | zero => exact Nat.zero_le _
    | succ f =>
      simp only [excessBits]
      split
      · exact Nat.zero_le _
      · have hhalf : n / 2 < 2 ^ (53 + k) := by
          rw [Nat.div_lt_iff_lt_mul (by norm_num)]
          calc n < 2 ^ (53 + (k + 1)) := h
            _ = 2 ^ (53 + k) * 2 := by ring
        have := ih f (n / 2) hhalf
        omega

/-- A number that has no more than 53 significant bits is a double: rounding
leaves it as it is. -/
theorem round53_exact (n e : Nat) (hbits : n < 2 ^ (53 + e)) (hdiv : 2 ^ e ∣ n) :
    round53 n = n := by
  have he : excessBits n n ≤ e := excessBits_le e n n hbits
  have hd : 2 ^ (excessBits n n) ∣ n := (Nat.pow_dvd_pow 2 he).trans hdiv
  have hr : n % 2 ^ (excessBits n n) = 0 := Nat.mod_eq_zero_of_dvd hd
  unfold round53
  simp only [hr, Nat.mul_zero]
  rw [if_pos (by positivity)]
  exact Nat.div_mul_cancel hd

/-- Whole numbers of px below `2 ^ 53` are doubles. -/
theorem round53_px (v : Nat) (h : v < 2 ^ 53) : round53 (px v) = px v := by
  unfold px
  apply round53_exact _ 48
  · calc v * 2 ^ 48 < 2 ^ 53 * 2 ^ 48 := Nat.mul_lt_mul_of_pos_right h (by positivity)
      _ = 2 ^ (53 + 48) := by ring
  · exact Dvd.intro_left v rfl

theorem px_sub (a b : Nat) : px a - px b = px (a - b) := by
  unfold px
  rw [Nat.sub_mul]

theorem px_lt (a b : Nat) : px a < px b ↔ a < b := by
  unfold px
  exact Nat.mul_lt_mul_right (by positivity)

/-- The run of the loop from a whole number `v` of px, at most `2 ^ 53`: it
returns, after going `j` times round; every size it left was too wide and
above 16, and the size it stops at is not both. -/
theorem shrinkLoop_trace {W : Type} [LinearOrder W] (width : Nat → W) (maxWidth : W)
    (v : Nat) :
    v ≤ 2 ^ 53 → ∃ j r, r + 2 * j = v ∧
      (∀ fuel, (v - 15) / 2 < fuel → shrinkLoop width maxWidth fuel (px v) = some (px r)) ∧
      ¬ (width (px r) > maxWidth ∧ r > 16) ∧
      ∀ i, i < j → width (px (v - 2 * i)) > maxWidth ∧ v - 2 * i > 16 := by
  induction v using Nat.strong_induction_on with
  | _ v ih =>
    intro hbound
    by_cases hc : width (px v) > maxWidth ∧ v > 16
    · obtain ⟨j, r, hj, hrun, hstop, hpre⟩ := ih (v - 2) (by omega) (by omega)
      refine ⟨j + 1, r, by omega, ?_, hstop, ?_⟩
      · intro fuel hfuel
        cases fuel with
        | zero => omega
        | succ f =>
          have hcond : width (px v) > maxWidth ∧ px v > px 16 := ⟨hc.1, (px_lt 16 v).2 hc.2⟩
          have hstep : round53 (px v - px 2) = px (v - 2) := by
            rw [px_sub]
            exact round53_px (v - 2) (by omega)
          simp only [shrinkLoop, if_pos hcond, hstep]
          exact hrun f (by omega)
      · intro i hi
        cases i with
        | zero => simpa using hc
        | succ i =>
          have h := hpre i (by omega)
          have e : v - 2 * (i + 1) = v - 2 - 2 * i := by omega
          rw [e]; exact h
    · refine ⟨0, v, by omega, ?_, hc, by intro i hi; omega⟩
      intro fuel hfuel
      cases fuel with
      | zero => omega
      | succ f =>
        have hcond : ¬ (width (px v) > maxWidth ∧ px v > px 16) := by
          rintro ⟨h1, h2⟩
          exact hc ⟨h1, (px_lt 16 v).1 h2⟩
        simp only [shrinkLoop, if_neg hcond]

/-- A size that is too wide, above 16 px, and that `fontSize -= 2` rounds
back to itself: the loop never ends. -/
theorem shrinkLoop_stuck {W : Type} [LinearOrder W] (width : Nat → W) (maxWidth : W)
    (n : Nat) (hwide : width n > maxWidth) (habove : n > px 16)
    (hround : round53 (n - px 2) = n) :
    ∀ fuel, shrinkLoop width maxWidth fuel n = none := by
  intro fuel
  induction fuel with
  | zero => rfl
  | succ f ih =>
    simp only [shrinkLoop, if_pos (And.intro hwide habove), hround]
    exact ih

/-- The call of line 122, from 36 px, returns within eleven evaluations of the
loop condition. -/
theorem drawAutoSizedText_call_returns (width : Nat → ℚ) :
    ∃ r, drawAutoSizedText 11 width 300 (px 36) = some (px r) := by
  obtain ⟨j, r, _, hrun, _, _⟩ := shrinkLoop_trace width 300 36 (by norm_num)
  exact ⟨r, hrun 11 (by norm_num)⟩

/-- C3, counterexample: the starting size `2 ^ 54 + 8`, which is 16 plus a
multiple of 2, with a text wider than `maxWidth` at every size:
`fontSize -= 2` rounds back to `2 ^ 54 + 8`, and the loop does not return
however long it runs. -/
theorem drawAutoSizedText_never_returns :
    16 ≤ 2 ^ 54 + 8 ∧ (2 ^ 54 + 8 - 16) % 2 = 0 ∧
    round53 (px (2 ^ 54 + 8)) = px (2 ^ 54 + 8) ∧
    round53 (px (2 ^ 54 + 8) - px 2) = px (2 ^ 54 + 8) ∧
    ∀ fuel, drawAutoSizedText fuel (fun _ => (301 : ℚ)) 300 (px (2 ^ 54 + 8)) = none := by
  refine ⟨by decide, by decide, by decide, by decide, ?_⟩
  exact shrinkLoop_stuck (fun _ => (301 : ℚ)) 300 (px (2 ^ 54 + 8)) (by norm_num) (by decide)
    (by decide)

/-- C3, amended: from a starting size of a whole number of px that is 16 plus
a multiple of 2 and at most `2 ^ 53`, the loop returns, and the size in effect
at `fillText` is one of `maxFontSize, maxFontSize - 2, ..., 16`; if any of
these fits `maxWidth` the chosen one fits and no fitting one is larger; if
none fits, it is 16. -/
theorem drawAutoSizedText_largest_fitting {W : Type} [LinearOrder W] (width : Nat → W)
    (maxWidth : W) (maxFontSize : Nat) (hfloor : 16 ≤ maxFontSize)
    (hstep : (maxFontSize - 16) % 2 = 0) (hbound : maxFontSize ≤ 2 ^ 53) :
    ∃ r, (∀ fuel, (maxFontSize - 16) / 2 < fuel →
        drawAutoSizedText fuel width maxWidth (px maxFontSize) = some (px r)) ∧
      r ∈ candidateSizes maxFontSize ∧
      (∀ n ∈ candidateSizes maxFontSize, width (px n) ≤ maxWidth →
        width (px r) ≤ maxWidth ∧ n ≤ r) ∧
      ((∀ n ∈ candidateSizes maxFontSize, ¬ width (px n) ≤ maxWidth) → r = 16) := by
  obtain ⟨j, r, hj, hrun, hstop, hpre⟩ := shrinkLoop_trace width maxWidth maxFontSize hbound
  have hlow : 16 ≤ r := by
    cases j with
    | zero => omega
    | succ j =>
      have h := (hpre j (by omega)).2
      omega
  have hmem : r ∈ candidateSizes maxFontSize :=
    (mem_candidateSizes _ _).2 ⟨j, by omega, by omega⟩
  refine ⟨r, ?_, hmem, ?_, ?_⟩
  · intro fuel hfuel
    exact hrun fuel (by omega)
  · intro n hn hfit
    obtain ⟨i, hi, rfl⟩ := (mem_candidateSizes _ _).1 hn
    have hij : j ≤ i := by
      by_contra hlt
      exact absurd hfit (not_le.2 (hpre i (by omega)).1)
    refine ⟨?_, by omega⟩
    by_contra hwide
    have h16 : r = 16 := by
      have := not_and.1 hstop (not_le.1 hwide)
      omega
    have e : maxFontSize - 2 * i = r := by omega
    rw [e] at hfit
    exact hwide hfit
  · intro hnone
    have := not_and.1 hstop (not_le.1 (hnone _ hmem))
    omega

/-- The one call, `maxWidth = 300` from 36 px, on a text 10 px wide per font px. -/
theorem drawAutoSizedText_largest_fitting_witness :
    ∃ r, (∀ fuel, (36 - 16) / 2 < fuel →
        drawAutoSizedText fuel (tenPerPx "Jane Doe") 300 (px 36) = some (px r)) ∧
      r ∈ candidateSizes 36 ∧
      (∀ n ∈ candidateSizes 36, tenPerPx "Jane Doe" (px n) ≤ 300 →
        tenPerPx "Jane Doe" (px r) ≤ 300 ∧ n ≤ r) ∧
      ((∀ n ∈ candidateSizes 36, ¬ tenPerPx "Jane Doe" (px n) ≤ 300) → r = 16) :=
  drawAutoSizedText_largest_fitting (tenPerPx "Jane Doe") 300 36 (by decide) (by decide)
    (by norm_num)

/-- C10, counterexample: with a text wider than `maxWidth` at every size, from
the odd starting size 17 px the text is drawn at 15 px; from 16.5 px it is
drawn at 14.5 px, below 15; and from `2 ^ 55` px, where `fontSize -= 2` rounds
back to `2 ^ 55`, the loop does not return. -/
theorem drawAutoSizedText_below_floor :
    16 ≤ 17 ∧ drawAutoSizedText 2 (fun _ => (301 : ℚ)) 300 (px 17) = some (px 15) ∧
    px 16 ≤ 33 * 2 ^ 47 ∧ round53 (33 * 2 ^ 47) = 33 * 2 ^ 47 ∧
    drawAutoSizedText 2 (fun _ => (301 : ℚ)) 300 (33 * 2 ^ 47) = some (29 * 2 ^ 47) ∧
    29 * 2 ^ 47 < px 15 ∧
    round53 (px (2 ^ 55)) = px (2 ^ 55) ∧
    ∀ fuel, drawAutoSizedText fuel (fun _ => (301 : ℚ)) 300 (px (2 ^ 55)) = none := by
  refine ⟨by decide, by decide, by decide, by decide, by decide, by decide, by decide, ?_⟩
  exact shrinkLoop_stuck (fun _ => (301 : ℚ)) 300 (px (2 ^ 55)) (by norm_num) (by decide)
    (by decide)

/-- C10, amended: from every starting size of a whole number of px, at least
16 and at most `2 ^ 53`, the loop returns; the size drawn at is at least 15
px, at least 16 px when the starting size is even, at most the starting size,
and it is the first size, going down from the starting size in steps of 2,
that fits or is not above 16. -/
theorem drawAutoSizedText_floor {W : Type} [LinearOrder W] (width : Nat → W)
    (maxWidth : W) (maxFontSize : Nat) (hfloor : 16 ≤ maxFontSize)
    (hbound : maxFontSize ≤ 2 ^ 53) :
    ∃ r j, (∀ fuel, (maxFontSize - 15) / 2 < fuel →
        drawAutoSizedText fuel width maxWidth (px maxFontSize) = some (px r)) ∧
      15 ≤ r ∧ (maxFontSize % 2 = 0 → 16 ≤ r) ∧ r + 2 * j = maxFontSize ∧
      (width (px r) ≤ maxWidth ∨ r ≤ 16) ∧
      ∀ i, i < j → maxWidth < width (px (maxFontSize - 2 * i)) ∧ 16 < maxFontSize - 2 * i := by
  obtain ⟨j, r, hj, hrun, hstop, hpre⟩ := shrinkLoop_trace width maxWidth maxFontSize hbound
  have hlow : 15 ≤ r := by
    cases j with
    | zero => omega
    | succ j =>
      have h := (hpre j (by omega)).2
      omega
  refine ⟨r, j, hrun, hlow, by intro hev; omega, hj, ?_, hpre⟩
  by_cases hfit : width (px r) ≤ maxWidth
  · exact Or.inl hfit
  · exact Or.inr (not_lt.1 (not_and.1 hstop (not_le.1 hfit)))

/-- The starting size 17 px with a text that never fits. -/
theorem drawAutoSizedText_floor_witness :
    ∃ r j, (∀ fuel, (17 - 15) / 2 < fuel →
        drawAutoSizedText fuel (fun _ => (301 : ℚ)) 300 (px 17) = some (px r)) ∧
      15 ≤ r ∧ (17 % 2 = 0 → 16 ≤ r) ∧ r + 2 * j = 17 ∧
      ((fun _ => (301 : ℚ)) (px r) ≤ 300 ∨ r ≤ 16) ∧
      ∀ i, i < j → 300 < (fun _ => (301 : ℚ)) (px (17 - 2 * i)) ∧ 16 < 17 - 2 * i :=
  drawAutoSizedText_floor (fun _ => (301 : ℚ)) 300 17 (by decide) (by norm_num)

/-! ## The lookup -/

theorem get_of_not_nullish (p : JSValue) (key : String) (h : p.isNullish = false) :
    ∃ v, p.get key = .ok v := by
  cases p <;> simp [JSValue.isNullish, JSValue.get] at h ⊢

theorem strictEqStr_iff (v : JSValue) (b : String) : v.strictEqStr b = true ↔ v = .str b := by
  cases v <;> simp [JSValue.strictEqStr]

/-- What the lookup returns has the identifier looked for. -/
theorem findLoop_some_bib (b : String) (items : List JSValue) (p : JSValue)
    (h : findLoop b items = .ok (some p)) : p.get "bib" = .ok (.str b) ∧ p ∈ items := by
  induction items with
  | nil => simp [findLoop] at h
  | cons q qs ih =>
    unfold findLoop at h
    cases hq : q.get "bib" with
    | error e => simp [hq] at h
    | ok v =>
      simp only [hq] at h
      by_cases hv : v.strictEqStr b = true
      · simp only [hv, if_true, Except.ok.injEq, Option.some.injEq] at h
        subst h
        rw [(strictEqStr_iff v b).1 hv] at hq
        exact ⟨hq, List.mem_cons_self _ _⟩
      · simp only [hv, if_false] at h
        exact ⟨(ih h).1, List.mem_cons_of_mem _ (ih h).2⟩

/-- Whatever the lookup returns can be read: it is not `null`, so the test
`!participant` fails exactly on the `undefined` of a miss. -/
theorem findLoop_some_not_nullish (b : String) (items : List JSValue) (p : JSValue)
    (h : findLoop b items = .ok (some p)) : p.isNullish = false := by
  have hb := (findLoop_some_bib b items p h).1
  cases p <;> simp [JSValue.get, JSValue.isNullish] at hb ⊢

/-- With no `null` before it, an entry that has the identifier is reached: the
lookup returns the first entry that has it. -/
theorem findLoop_hit (b : String) (pre post : List JSValue) (p : JSValue)
    (hpre : ∀ q ∈ pre, q.isNullish = false) (hp : p.get "bib" = .ok (.str b)) :
    ∃ found, findLoop b (pre ++ p :: post) = .ok (some found) := by
  induction pre with
  | nil =>
    refine ⟨p, ?_⟩
    simp [findLoop, hp, JSValue.strictEqStr]
  | cons q qs ih =>
    obtain ⟨v, hv⟩ := get_of_not_nullish q "bib" (hpre q (List.mem_cons_self _ _))
    obtain ⟨found, hfound⟩ := ih (fun x hx => hpre x (List.mem_cons_of_mem _ hx))
    by_cases hs : v.strictEqStr b = true
    · exact ⟨q, by simp [findLoop, hv, hs]⟩
    · exact ⟨found, by simp [findLoop, hv, hs, hfound]⟩

/-- With no `null` among the entries and the identifier on none of them, the
lookup returns `undefined`. -/
theorem findLoop_miss (b : String) (items : List JSValue)
    (hitems : ∀ q ∈ items, q.isNullish = false)
    (hmiss : ∀ q ∈ items, q.get "bib" ≠ .ok (.str b)) :
    findLoop b items = .ok none := by
  induction items with
  | nil => rfl
  | cons q qs ih =>
    obtain ⟨v, hv⟩ := get_of_not_nullish q "bib" (hitems q (List.mem_cons_self _ _))
    have hs : v.strictEqStr b = false := by
      cases hvs : v.strictEqStr b with
      | false => rfl
      | true =>
        rw [(strictEqStr_iff v b).1 hvs] at hv
        exact absurd hv (hmiss q (List.mem_cons_self _ _))
    simp only [findLoop, hv, hs]
    exact ih (fun x hx => hitems x (List.mem_cons_of_mem _ hx))
      (fun x hx => hmiss x (List.mem_cons_of_mem _ hx))

/-! ## Drawing -/

/-- The `try` block touches neither the directory nor, before its last step,
the notification; when it completes it has cleared the busy state and shown
one notification. -/
theorem drawCertificateTry_frame (measureText : String → Nat → ℚ) (fault : Fault) (s : State)
    (participant : JSValue) :
    match drawCertificateTry measureText fault s participant with
    | .ok t => t.idle ∧ t.results.length = 1 ∧ t.participants = s.participants ∧
        t.dataLoaded = s.dataLoaded
    | .error t => t.participants = s.participants ∧ t.dataLoaded = s.dataLoaded := by
  unfold drawCertificateTry
  by_cases hd : fault = .drawing
  · simp [hd]
  · simp only [hd, if_false]
    cases hname : participant.get "name" with
    | error e => simp
    | ok name =>
      simp only
      cases hfs : drawAutoSizedText 11 (measureText name.toStr) 300 (px 36) with
      | none => simp
      | some fontSize =>
        simp only
        cases hbib : participant.get "bib" with
        | error e => simp [State.called]
        | ok bib =>
          simp only [downloadCertificate]
          by_cases he : fault = .exporting
          · simp [he, State.called]
          · simp [he, State.called, showMessage, hideLoading, clearResults, State.idle]

/-- Whatever the `try` block does, `drawCertificate` ends with the busy state
cleared and exactly one notification, and leaves the directory alone. -/
theorem drawCertificate_frame (measureText : String → Nat → ℚ) (fault : Fault) (s : State)
    (withImage : Bool) (participant : JSValue) :
    (drawCertificate measureText fault s withImage participant).idle ∧
    (drawCertificate measureText fault s withImage participant).results.length = 1 ∧
    (drawCertificate measureText fault s withImage participant).participants = s.participants ∧
    (drawCertificate measureText fault s withImage participant).dataLoaded = s.dataLoaded := by
  have h := drawCertificateTry_frame measureText fault (s.called (.drawCertificate withImage))
    participant
  unfold drawCertificate
  cases htry : drawCertificateTry measureText fault (s.called (.drawCertificate withImage))
      participant with
  | ok t =>
    rw [htry] at h
    exact h
  | error t =>
    rw [htry] at h
    simp only at h
    simp only [showMessage, hideLoading, clearResults, State.idle, List.nil_append,
      List.length_singleton, and_self, true_and]
    exact h

/-- A drawing without fault for a participant that can be read: one more
download, named after its `bib`, and the success notification. -/
theorem drawCertificate_success (measureText : String → Nat → ℚ) (s : State)
    (withImage : Bool) (p bib : JSValue) (hp : p.isNullish = false)
    (hbib : p.get "bib" = .ok bib) :
    (drawCertificate measureText .none s withImage p).results =
      [⟨"Certificate downloaded successfully!", .success⟩] ∧
    (drawCertificate measureText .none s withImage p).downloads =
      s.downloads ++ [certificateFilename bib] := by
  obtain ⟨name, hname⟩ := get_of_not_nullish p "name" hp
  obtain ⟨r, hr⟩ := drawAutoSizedText_call_returns (measureText name.toStr)
  unfold drawCertificate drawCertificateTry downloadCertificate
  simp [hname, hr, hbib, showMessage, hideLoading, clearResults, State.called, kindOf]

/-! ## Callbacks -/

/-- One callback: the directory and the render's participant stay, at most
one notification stays at most one, a cleared busy state stays cleared, and
"the image has loaded only if a drawing has cleared the busy state" stays. -/
theorem fire_frame (measureText : String → Nat → ℚ) (sr : State × Render) (c : Callback) :
    (fire measureText sr c).1.participants = sr.1.participants ∧
    (fire measureText sr c).1.dataLoaded = sr.1.dataLoaded ∧
    (fire measureText sr c).2.participant = sr.2.participant ∧
    (sr.1.results.length ≤ 1 → (fire measureText sr c).1.results.length ≤ 1) ∧
    (sr.1.idle → (fire measureText sr c).1.idle) ∧
    ((sr.2.backgroundLoaded = true → sr.1.idle) →
      ((fire measureText sr c).2.backgroundLoaded = true → (fire measureText sr c).1.idle)) := by
  cases c with
  | onload f =>
    obtain ⟨h1, h2, h3, h4⟩ := drawCertificate_frame measureText f sr.1 true sr.2.participant
    exact ⟨h3, h4, rfl, fun _ => le_of_eq h2, fun _ => h1, fun _ _ => h1⟩
  | onerror f =>
    obtain ⟨h1, h2, h3, h4⟩ := drawCertificate_frame measureText f sr.1 false sr.2.participant
    exact ⟨h3, h4, rfl, fun _ => le_of_eq h2, fun _ => h1, fun _ _ => h1⟩
  | timeout f =>
    obtain ⟨h1, h2, h3, h4⟩ := drawCertificate_frame measureText f sr.1 false sr.2.participant
    by_cases hb : sr.2.backgroundLoaded = true
    · have e : fire measureText sr (.timeout f) = sr := by simp [fire, hb]
      rw [e]
      exact ⟨rfl, rfl, rfl, id, id, id⟩
    · have e : fire measureText sr (.timeout f) =
          (drawCertificate measureText f sr.1 false sr.2.participant, sr.2) := by
        simp [fire, hb]
      rw [e]
      exact ⟨h3, h4, rfl, fun _ => le_of_eq h2, fun _ => h1, fun _ _ => h1⟩

/-- The timer callback leaves the busy state cleared. -/
theorem fire_timeout_idle (measureText : String → Nat → ℚ) (sr : State × Render) (f : Fault)
    (hguard : sr.2.backgroundLoaded = true → sr.1.idle) :
    (fire measureText sr (.timeout f)).1.idle := by
  by_cases hb : sr.2.backgroundLoaded = true
  · have e : fire measureText sr (.timeout f) = sr := by simp [fire, hb]
    rw [e]
    exact hguard hb
  · have e : fire measureText sr (.timeout f) =
        (drawCertificate measureText f sr.1 false sr.2.participant, sr.2) := by
      simp [fire, hb]
    rw [e]
    exact (drawCertificate_frame measureText f sr.1 false sr.2.participant).1

theorem runCallbacks_frame (measureText : String → Nat → ℚ) (callbacks : List Callback) :
    ∀ sr : State × Render,
    (runCallbacks measureText sr callbacks).1.participants = sr.1.participants ∧
    (runCallbacks measureText sr callbacks).1.dataLoaded = sr.1.dataLoaded ∧
    (runCallbacks measureText sr callbacks).2.participant = sr.2.participant ∧
    (sr.1.results.length ≤ 1 → (runCallbacks measureText sr callbacks).1.results.length ≤ 1) ∧
    (sr.1.idle → (runCallbacks measureText sr callbacks).1.idle) ∧
    ((sr.2.backgroundLoaded = true → sr.1.idle) →
      ((runCallbacks measureText sr callbacks).2.backgroundLoaded = true →
        (runCallbacks measureText sr callbacks).1.idle)) := by
  induction callbacks with
  | nil => intro sr; exact ⟨rfl, rfl, rfl, id, id, id⟩
  | cons c cs ih =>
    intro sr
    obtain ⟨a1, a2, a3, a4, a5, a6⟩ := fire_frame measureText sr c
    obtain ⟨b1, b2, b3, b4, b5, b6⟩ := ih (fire measureText sr c)
    simp only [runCallbacks, List.foldl_cons] at *
    exact ⟨b1.trans a1, b2.trans a2, b3.trans a3, fun h => b4 (a4 h), fun h => b5 (a5 h),
      fun h => b6 (a6 h)⟩

theorem runCallbacks_append (measureText : String → Nat → ℚ) (sr : State × Render)
    (xs ys : List Callback) :
    runCallbacks measureText sr (xs ++ ys) =
      runCallbacks measureText (runCallbacks measureText sr xs) ys := by
  simp [runCallbacks, List.foldl_append]

/-- Once the timer callback has run, the busy state is cleared, whatever ran
before and after it. -/
theorem runCallbacks_idle_of_timeout (measureText : String → Nat → ℚ) (sr : State × Render)
    (callbacks : List Callback) (hguard : sr.2.backgroundLoaded = true → sr.1.idle)
    (htimeout : ∃ f, Callback.timeout f ∈ callbacks) :
    (runCallbacks measureText sr callbacks).1.idle := by
  obtain ⟨f, hf⟩ := htimeout
  obtain ⟨pre, post, rfl⟩ := List.append_of_mem hf
  rw [runCallbacks_append]
  have hpre := (runCallbacks_frame measureText pre sr).2.2.2.2.2 hguard
  have hfire := fire_timeout_idle measureText (runCallbacks measureText sr pre) f hpre
  have : runCallbacks measureText (runCallbacks measureText sr pre) (Callback.timeout f :: post)
      = runCallbacks measureText (fire measureText (runCallbacks measureText sr pre)
          (Callback.timeout f)) post := by
    simp [runCallbacks]
  rw [this]
  exact (runCallbacks_frame measureText post _).2.2.2.2.1 hfire

/-- Callbacks without fault, for a render of a participant that can be read:
the downloads grow by copies of the one file name, a loaded image implies a
drawing has happened, a drawing leaves the success notification, and the
first callback to run draws. -/
theorem runCallbacks_success (measureText : String → Nat → ℚ) (p bib : JSValue)
    (hp : p.isNullish = false) (hbib : p.get "bib" = .ok bib)
    (base : List String) (callbacks : List Callback) :
    ∀ (sr : State × Render) (k : Nat),
    sr.2.participant = p →
    sr.1.downloads = base ++ List.replicate k (certificateFilename bib) →
    (sr.2.backgroundLoaded = true → 1 ≤ k) →
    (1 ≤ k → sr.1.results = [⟨"Certificate downloaded successfully!", .success⟩]) →
    (∀ c ∈ callbacks, c.fault = .none) →
    ∃ n, k ≤ n ∧
      (runCallbacks measureText sr callbacks).1.downloads =
        base ++ List.replicate n (certificateFilename bib) ∧
      (1 ≤ n → (runCallbacks measureText sr callbacks).1.results =
        [⟨"Certificate downloaded successfully!", .success⟩]) ∧
      (callbacks ≠ [] → 1 ≤ n) := by
  induction callbacks with
  | nil =>
    intro sr k _ hd _ hres _
    exact ⟨k, le_refl k, hd, hres, by simp⟩
  | cons c cs ih =>
    intro sr k hpart hd hbg hres hfaults
    have hc : c.fault = .none := hfaults c (List.mem_cons_self c cs)
    have hcs : ∀ c ∈ cs, c.fault = .none := fun x hx => hfaults x (List.mem_cons_of_mem c hx)
    have hrun : runCallbacks measureText sr (c :: cs) =
        runCallbacks measureText (fire measureText sr c) cs := rfl
    rw [hrun]
    have hdraw : ∀ w : Bool,
        (drawCertificate measureText .none sr.1 w sr.2.participant).results =
          [⟨"Certificate downloaded successfully!", .success⟩] ∧
        (drawCertificate measureText .none sr.1 w sr.2.participant).downloads =
          base ++ List.replicate (k + 1) (certificateFilename bib) := by
      intro w
      rw [hpart]
      obtain ⟨h1, h2⟩ := drawCertificate_success measureText sr.1 w p bib hp hbib
      refine ⟨h1, ?_⟩
      rw [h2, hd, List.replicate_succ', List.append_assoc]
    -- the callback either draws, or is the timer after a load
    have hstep : ∃ m, k ≤ m ∧ 1 ≤ m ∧
        (fire measureText sr c).2.participant = p ∧
        (fire measureText sr c).1.downloads =
          base ++ List.replicate m (certificateFilename bib) ∧
        (fire measureText sr c).1.results =
          [⟨"Certificate downloaded successfully!", .success⟩] := by
      cases c with
      | onload f =>
        have hf : f = .none := hc
        subst hf
        exact ⟨k + 1, by omega, by omega, hpart, (hdraw true).2, (hdraw true).1⟩
      | onerror f =>
        have hf : f = .none := hc
        subst hf
        exact ⟨k + 1, by omega, by omega, hpart, (hdraw false).2, (hdraw false).1⟩
      | timeout f =>
        have hf : f = .none := hc
        subst hf
        by_cases hb : sr.2.backgroundLoaded = true
        · have e : fire measureText sr (.timeout .none) = sr := by simp [fire, hb]
          rw [e]
          exact ⟨k, le_refl k, hbg hb, hpart, hd, hres (hbg hb)⟩
        · have e : fire measureText sr (.timeout .none) =
              (drawCertificate measureText .none sr.1 false sr.2.participant, sr.2) := by
            simp [fire, hb]
          rw [e]
          exact ⟨k + 1, by omega, by omega, hpart, (hdraw false).2, (hdraw false).1⟩
    obtain ⟨m, hkm, hm, hp2, hd2, hres2⟩ := hstep
    obtain ⟨n, hmn, hd3, hres3, _⟩ := ih (fire measureText sr c) m hp2 hd2 (fun _ => hm)
      (fun _ => hres2) hcs
    exact ⟨n, by omega, hd3, hres3, fun _ => by omega⟩

/-! ## The search -/

/-- The search depends on the case mapping through the normalized input only. -/
theorem performCertificateSearch_congr (U V : CaseMapping) (setupThrows : Bool) (s : State)
    (value : String) (h : U.toUpperCase (trim value) = V.toUpperCase (trim value)) :
    performCertificateSearch U setupThrows s value =
      performCertificateSearch V setupThrows s value := by
  unfold performCertificateSearch
  rw [h]

theorem search_congr (U V : CaseMapping) (measureText : String → Nat → ℚ) (setupThrows : Bool)
    (s : State) (value : String) (callbacks : List Callback)
    (h : U.toUpperCase (trim value) = V.toUpperCase (trim value)) :
    search U measureText setupThrows s value callbacks =
      search V measureText setupThrows s value callbacks := by
  unfold search
  rw [performCertificateSearch_congr U V setupThrows s value h]

/-- On a string of ASCII characters every case mapping is the ASCII one. -/
theorem toUpperCase_ascii (U : CaseMapping) (s : String) (h : ∀ c ∈ s.data, c.toNat < 128) :
    U.toUpperCase s = asciiCase.toUpperCase s :=
  U.ascii s h

/-- Past the two guards, `performCertificateSearch` enters the busy state,
waits, and branches on the lookup. -/
theorem performCertificateSearch_started (U : CaseMapping) (setupThrows : Bool) (s : State)
    (value : String) (hne : U.toUpperCase (trim value) ≠ "") (hready : s.dataLoaded = true) :
    performCertificateSearch U setupThrows s value =
      match find s.participants (U.toUpperCase (trim value)) with
      | .error _ =>
        (showMessage (hideLoading (((showLoading s).called (.delay 800)).called
          (.find (U.toUpperCase (trim value)))))
          "An error occurred while generating your certificate. Please try again or contact support."
          "error", none)
      | .ok none =>
        (showMessage (hideLoading (((showLoading s).called (.delay 800)).called
          (.find (U.toUpperCase (trim value)))))
          ("No participant found with Bib Number \"" ++ U.toUpperCase (trim value) ++
            "\". Please verify your Bib Number and try again.") "error", none)
      | .ok (some participant) =>
        generateCertificate setupThrows (((showLoading s).called (.delay 800)).called
          (.find (U.toUpperCase (trim value)))) participant := by
  unfold performCertificateSearch
  simp only [hne, hready, if_false, Bool.not_true, Bool.false_eq_true]
  rfl

/-- C4, counterexample: a ready directory with a `null` entry after the one
record, and the input "002", whose normalized form is non-empty and is no
entry's identifier: the lookup throws on the `null`, and the search ends with
the generic error, not with not-found. -/
theorem search_error_on_null_entry :
    (loadedPage (.arr [janeDoe.toJS, .null])).dataLoaded = true ∧
    ∀ U : CaseMapping, U.toUpperCase (trim "002") = "002" ∧
      (search U tenPerPx false (loadedPage (.arr [janeDoe.toJS, .null])) "002"
        [.timeout .none]).results =
        [⟨"An error occurred while generating your certificate. Please try again or contact support.",
          .error⟩] := by
  refine ⟨rfl, fun U => ?_⟩
  have h : U.toUpperCase (trim "002") = asciiCase.toUpperCase (trim "002") :=
    toUpperCase_ascii U (trim "002") (by decide)
  rw [search_congr U asciiCase _ _ _ _ _ h, h]
  exact ⟨by decide, by decide⟩

/-- C4, amended: in a ready directory that is a list with no `null` entry, an
input whose trimmed, uppercased form is non-empty and is the `bib` of no entry
ends the search with exactly one notification, of kind error, whose message
is the not-found text around the normalized identifier, put unescaped into
the markup of the notification; no render is started: the only functions
entered are `showLoading`, the pause and the lookup, and nothing is
downloaded, whatever callbacks are offered. -/
theorem search_not_found (U : CaseMapping) (measureText : String → Nat → ℚ)
    (setupThrows : Bool) (s : State) (items : List JSValue) (value : String)
    (callbacks : List Callback)
    (hready : s.dataLoaded = true) (hdir : s.participants = .arr items)
    (hitems : ∀ q ∈ items, q.isNullish = false)
    (hne : U.toUpperCase (trim value) ≠ "")
    (hmiss : ∀ q ∈ items, q.get "bib" ≠ .ok (.str (U.toUpperCase (trim value)))) :
    (performCertificateSearch U setupThrows s value).2 = none ∧
    (search U measureText setupThrows s value callbacks).results =
      [⟨"No participant found with Bib Number \"" ++ U.toUpperCase (trim value) ++
          "\". Please verify your Bib Number and try again.", .error⟩] ∧
    (search U measureText setupThrows s value callbacks).results.map Notification.innerHTML =
      ["\n        <div class=\"bg-white rounded-lg shadow-sm border-2 " ++
        "border-red-200" ++
        " p-4 sm:p-5\">\n            <div class=\"flex items-start gap-3\">\n                " ++
        "<svg class=\"w-5 h-5 text-red-500 flex-shrink-0\" fill=\"currentColor\" viewBox=\"0 0 20 20\">\n            <path fill-rule=\"evenodd\" d=\"M10 18a8 8 0 100-16 8 8 0 000 16zM8.707 7.293a1 1 0 00-1.414 1.414L8.586 10l-1.293 1.293a1 1 0 101.414 1.414L10 11.414l1.293 1.293a1 1 0 001.414-1.414L11.414 10l1.293-1.293a1 1 0 00-1.414-1.414L10 8.586 8.707 7.293z\" clip-rule=\"evenodd\"/>\n        </svg>" ++
        "\n                <p class=\"text-xs sm:text-sm font-medium " ++
        "text-red-800" ++
        "\">" ++
        "No participant found with Bib Number \"" ++
        U.toUpperCase (trim value) ++
        "\". Please verify your Bib Number and try again." ++
        "</p>\n            </div>\n        </div>\n    "] ∧
    (search U measureText setupThrows s value callbacks).calls =
      s.calls ++ [.showLoading, .delay 800, .find (U.toUpperCase (trim value))] ∧
    (search U measureText setupThrows s value callbacks).downloads = s.downloads := by
  have hfind : find s.participants (U.toUpperCase (trim value)) = .ok none := by
    rw [hdir]
    exact findLoop_miss _ items hitems hmiss
  have hpcs := performCertificateSearch_started U setupThrows s value hne hready
  rw [hfind] at hpcs
  simp only at hpcs
  have hsearch : search U measureText setupThrows s value callbacks =
      showMessage (hideLoading (((showLoading s).called (.delay 800)).called
          (.find (U.toUpperCase (trim value)))))
          ("No participant found with Bib Number \"" ++ U.toUpperCase (trim value) ++
            "\". Please verify your Bib Number and try again.") "error" := by
    unfold search
    rw [hpcs]
  refine ⟨by rw [hpcs], ?_, ?_, ?_, ?_⟩
  · rw [hsearch]
    simp [showMessage, clearResults, kindOf]
  · rw [hsearch]
    simp only [showMessage, clearResults, kindOf, List.nil_append, List.map_cons, List.map_nil,
      Notification.innerHTML, styling, String.append_assoc, if_true]
  · rw [hsearch]
    simp [showMessage, hideLoading, showLoading, clearResults, State.called]
  · rw [hsearch]
    simp [showMessage, hideLoading, showLoading, clearResults, State.called]

/-- The input " 002 " against a directory that holds only "001". -/
theorem search_not_found_witness :
    (performCertificateSearch asciiCase false (readyPage [janeDoe]) " 002 ").2 = none ∧
    (search asciiCase tenPerPx false (readyPage [janeDoe]) " 002 "
      [.onerror .none, .timeout .none]).results =
      [⟨"No participant found with Bib Number \"" ++ asciiCase.toUpperCase (trim " 002 ") ++
          "\". Please verify your Bib Number and try again.", .error⟩] ∧
    (search asciiCase tenPerPx false (readyPage [janeDoe]) " 002 "
      [.onerror .none, .timeout .none]).results.map Notification.innerHTML =
      ["\n        <div class=\"bg-white rounded-lg shadow-sm border-2 " ++
        "border-red-200" ++
        " p-4 sm:p-5\">\n            <div class=\"flex items-start gap-3\">\n                " ++
        "<svg class=\"w-5 h-5 text-red-500 flex-shrink-0\" fill=\"currentColor\" viewBox=\"0 0 20 20\">\n            <path fill-rule=\"evenodd\" d=\"M10 18a8 8 0 100-16 8 8 0 000 16zM8.707 7.293a1 1 0 00-1.414 1.414L8.586 10l-1.293 1.293a1 1 0 101.414 1.414L10 11.414l1.293 1.293a1 1 0 001.414-1.414L11.414 10l1.293-1.293a1 1 0 00-1.414-1.414L10 8.586 8.707 7.293z\" clip-rule=\"evenodd\"/>\n        </svg>" ++
        "\n                <p class=\"text-xs sm:text-sm font-medium " ++
        "text-red-800" ++
        "\">" ++
        "No participant found with Bib Number \"" ++
        asciiCase.toUpperCase (trim " 002 ") ++
        "\". Please verify your Bib Number and try again." ++
        "</p>\n            </div>\n        </div>\n    "] ∧
    (search asciiCase tenPerPx false (readyPage [janeDoe]) " 002 "
      [.onerror .none, .timeout .none]).calls =
      (readyPage [janeDoe]).calls ++
        [.showLoading, .delay 800, .find (asciiCase.toUpperCase (trim " 002 "))] ∧
    (search asciiCase tenPerPx false (readyPage [janeDoe]) " 002 "
      [.onerror .none, .timeout .none]).downloads = (readyPage [janeDoe]).downloads :=
  search_not_found asciiCase tenPerPx false (readyPage [janeDoe]) [janeDoe.toJS] " 002 "
    [.onerror .none, .timeout .none] rfl rfl (by decide) (by decide)
    (by
      intro q hq h
      simp only [List.mem_singleton] at hq
      subst hq
      have h2 : JSValue.str "001" = JSValue.str (asciiCase.toUpperCase (trim " 002 ")) :=
        Except.ok.inj h
      exact absurd (JSValue.str.inj h2) (by decide))

/-- C7: a search that has entered the busy state has cleared it when its
promise settles without a render pending (lookup miss, lookup throwing,
`generateCertificate` throwing), and otherwise once the timer callback has
run, for every fault of every drawing and every order of the callbacks. -/
theorem busy_state_cleared (U : CaseMapping) (measureText : String → Nat → ℚ)
    (setupThrows : Bool) (s : State) (value : String) (callbacks : List Callback)
    (hne : U.toUpperCase (trim value) ≠ "") (hready : s.dataLoaded = true)
    (hdone : (performCertificateSearch U setupThrows s value).2 = none ∨
      ∃ f, Callback.timeout f ∈ callbacks) :
    (search U measureText setupThrows s value callbacks).idle := by
  have hpcs := performCertificateSearch_started U setupThrows s value hne hready
  unfold search
  rw [hpcs] at hdone ⊢
  cases hfind : find s.participants (U.toUpperCase (trim value)) with
  | error e => simp [showMessage, hideLoading, clearResults, State.idle]
  | ok found =>
    cases found with
    | none => simp [showMessage, hideLoading, clearResults, State.idle]
    | some p =>
      rw [hfind] at hdone
      cases setupThrows with
      | true => simp [generateCertificate, showMessage, hideLoading, clearResults, State.idle]
      | false =>
        simp only [generateCertificate] at hdone ⊢
        rcases hdone with h | h
        · simp at h
        · exact runCallbacks_idle_of_timeout measureText _ callbacks (by simp) h

/-- A load error whose export throws, then a timer whose drawing throws. -/
theorem busy_state_cleared_witness :
    (search asciiCase tenPerPx false (readyPage [janeDoe]) "001"
      [.onerror .exporting, .timeout .drawing]).idle :=
  busy_state_cleared asciiCase tenPerPx false (readyPage [janeDoe]) "001"
    [.onerror .exporting, .timeout .drawing] (by decide) rfl (Or.inr ⟨.drawing, by decide⟩)

/-- C6: `performCertificateSearch` ends at once with a single warning, and
with everything else as it was (busy flags, directory, downloads, call
trace) and no render pending, exactly when the trimmed input is empty or the
directory is not ready. On empty input the warning is the missing-identifier
one whether or not the directory is ready; the not-ready warning differs in
kind and in text from every not-found error. -/
theorem early_abort_guard (U : CaseMapping) (setupThrows : Bool) (s : State) (value : String) :
    ((trim value = "" ∨ s.dataLoaded = false) ↔
      ∃ message, performCertificateSearch U setupThrows s value =
        ({ s with results := [⟨message, .warning⟩] }, none)) ∧
    (trim value = "" →
      performCertificateSearch U setupThrows s value =
        ({ s with results := [⟨"Please enter a Bib Number to search", .warning⟩] }, none)) ∧
    (trim value ≠ "" → s.dataLoaded = false →
      performCertificateSearch U setupThrows s value =
        ({ s with results :=
          [⟨"Participant data is still loading. Please wait a moment and try again.",
            .warning⟩] }, none)) ∧
    (∀ bibNumber : String,
      (⟨"Participant data is still loading. Please wait a moment and try again.",
          kindOf "warning"⟩ : Notification).kind ≠
        (⟨"No participant found with Bib Number \"" ++ bibNumber ++
            "\". Please verify your Bib Number and try again.", kindOf "error"⟩ :
          Notification).kind ∧
      "Participant data is still loading. Please wait a moment and try again." ≠
        "No participant found with Bib Number \"" ++ bibNumber ++
          "\". Please verify your Bib Number and try again.") := by
  have hempty : trim value = "" →
      performCertificateSearch U setupThrows s value =
        ({ s with results := [⟨"Please enter a Bib Number to search", .warning⟩] }, none) := by
    intro h
    have hb : U.toUpperCase (trim value) = "" := (U.empty_iff _).2 h
    unfold performCertificateSearch
    simp only [hb, if_true]
    rfl
  have hloading : trim value ≠ "" → s.dataLoaded = false →
      performCertificateSearch U setupThrows s value =
        ({ s with results :=
          [⟨"Participant data is still loading. Please wait a moment and try again.",
            .warning⟩] }, none) := by
    intro h hd
    have hb : U.toUpperCase (trim value) ≠ "" := fun e => h ((U.empty_iff _).1 e)
    have e : (!s.dataLoaded) = true := by simp [hd]
    unfold performCertificateSearch
    simp only [hb, e, if_false, if_true]
    rfl
  refine ⟨⟨?_, ?_⟩, hempty, hloading, ?_⟩
  · rintro (h | h)
    · exact ⟨_, hempty h⟩
    · by_cases he : trim value = ""
      · exact ⟨_, hempty he⟩
      · exact ⟨_, hloading he h⟩
  · rintro ⟨message, hm⟩
    by_contra hcon
    have h1 : trim value ≠ "" := fun e => hcon (Or.inl e)
    have h2 : s.dataLoaded = true := by
      cases hd : s.dataLoaded with
      | true => rfl
      | false => exact absurd (Or.inr hd) hcon
    have hb : U.toUpperCase (trim value) ≠ "" := fun e => h1 ((U.empty_iff _).1 e)
    have hcalls : (performCertificateSearch U setupThrows s value).1.calls.length >
        s.calls.length := by
      rw [performCertificateSearch_started U setupThrows s value hb h2]
      cases find s.participants (U.toUpperCase (trim value)) with
      | error e => simp [showMessage, hideLoading, showLoading, clearResults, State.called]
      | ok found =>
        cases found with
        | none => simp [showMessage, hideLoading, showLoading, clearResults, State.called]
        | some p =>
          cases setupThrows <;>
            simp [generateCertificate, showMessage, hideLoading, showLoading, clearResults,
              State.called]
    rw [hm] at hcalls
    simp at hcalls
  · intro bibNumber
    refine ⟨by simp [kindOf], ?_⟩
    intro h
    have h2 := congrArg (fun t : String => t.data.head?) h
    simp at h2

/-- Whitespace-only input on a ready page: the missing-identifier warning and
nothing else. -/
theorem early_abort_guard_witness :
    performCertificateSearch asciiCase false (readyPage [janeDoe]) "   " =
      ({ readyPage [janeDoe] with
          results := [⟨"Please enter a Bib Number to search", .warning⟩] }, none) :=
  (early_abort_guard asciiCase false (readyPage [janeDoe]) "   ").2.1 (by decide)

/-! ## A search that finds its record -/

/-- A search whose lookup reaches an entry with the non-empty normalized
identifier: a render of the entry the lookup returns is pending, with nothing
shown yet. -/
theorem performCertificateSearch_found (U : CaseMapping) (s : State) (pre post : List JSValue)
    (p : JSValue) (value : String)
    (hready : s.dataLoaded = true) (hdir : s.participants = .arr (pre ++ p :: post))
    (hpre : ∀ q ∈ pre, q.isNullish = false)
    (hp : p.get "bib" = .ok (.str (U.toUpperCase (trim value))))
    (hne : U.toUpperCase (trim value) ≠ "") :
    ∃ found, found.get "bib" = .ok (.str (U.toUpperCase (trim value))) ∧
      found ∈ pre ++ p :: post ∧ found.isNullish = false ∧
      performCertificateSearch U false s value =
        ((((showLoading s).called (.delay 800)).called
          (.find (U.toUpperCase (trim value)))).called .generateCertificate,
          some ⟨found, false⟩) := by
  obtain ⟨found, hfound⟩ := findLoop_hit (U.toUpperCase (trim value)) pre post p hpre hp
  have hb := findLoop_some_bib _ _ _ hfound
  have hn := findLoop_some_not_nullish _ _ _ hfound
  have hpcs := performCertificateSearch_started U false s value hne hready
  have hfind : find s.participants (U.toUpperCase (trim value)) = .ok (some found) := by
    rw [hdir]; exact hfound
  rw [hfind] at hpcs
  simp only [generateCertificate, Bool.false_eq_true, if_false] at hpcs
  exact ⟨found, hb.1, hb.2, hn, hpcs⟩

/-- A render of a participant that can be read, started by a search, with
callbacks that do not fault: once one callback has run the success
notification is shown and every download made, at least one, is named after
the participant's `bib`; the directory is as before. -/
theorem search_success_of_pending (U : CaseMapping) (measureText : String → Nat → ℚ)
    (setupThrows : Bool) (s t : State) (value : String) (callbacks : List Callback)
    (found bib : JSValue)
    (hpcs : performCertificateSearch U setupThrows s value = (t, some ⟨found, false⟩))
    (hn : found.isNullish = false) (hbib : found.get "bib" = .ok bib)
    (hfaults : ∀ c ∈ callbacks, c.fault = .none) (hrun : callbacks ≠ []) :
    (search U measureText setupThrows s value callbacks).results =
      [⟨"Certificate downloaded successfully!", .success⟩] ∧
    (∃ n, 1 ≤ n ∧ (search U measureText setupThrows s value callbacks).downloads =
      t.downloads ++ List.replicate n (certificateFilename bib)) ∧
    (search U measureText setupThrows s value callbacks).participants = t.participants ∧
    (search U measureText setupThrows s value callbacks).dataLoaded = t.dataLoaded := by
  unfold search
  rw [hpcs]
  simp only
  obtain ⟨n, _, hd, hres, hpos⟩ := runCallbacks_success measureText found bib hn hbib
    t.downloads callbacks (t, ⟨found, false⟩) 0 rfl (by simp) (by simp) (by simp) hfaults
  have hn1 := hpos hrun
  obtain ⟨f1, f2, _⟩ := runCallbacks_frame measureText callbacks (t, ⟨found, false⟩)
  exact ⟨hres hn1, ⟨n, hn1, hd⟩, f1, f2⟩

/-- C1, counterexample: a record stored as "ab1" is not found by the input
"ab1", which the search turns into "AB1"; a record stored as "AB1" behind a
`null` entry is not reached by the input "ab1", the lookup throws; and a
record stored under the empty identifier is not looked up on the empty input. -/
theorem lookup_misses_lowercase_record :
    (∀ U : CaseMapping,
      find (directory [⟨"Asha Rao", "ab1", "5K"⟩]) (U.toUpperCase (trim "ab1")) = .ok none ∧
      performCertificateSearch U false (readyPage [⟨"Asha Rao", "ab1", "5K"⟩]) "ab1" =
        ({ readyPage [⟨"Asha Rao", "ab1", "5K"⟩] with
            results := [⟨"No participant found with Bib Number \"AB1\". Please verify your Bib Number and try again.",
              .error⟩],
            calls := [.showLoading, .delay 800, .find "AB1"] }, none)) ∧
    (∀ U : CaseMapping,
      performCertificateSearch U false
          (loadedPage (.arr [.null, (⟨"Asha Rao", "AB1", "5K"⟩ : ParticipantRecord).toJS])) "ab1" =
        ({ loadedPage (.arr [.null, (⟨"Asha Rao", "AB1", "5K"⟩ : ParticipantRecord).toJS]) with
            results := [⟨"An error occurred while generating your certificate. Please try again or contact support.",
              .error⟩],
            calls := [.showLoading, .delay 800, .find "AB1"] }, none)) ∧
    (∀ U : CaseMapping,
      performCertificateSearch U false (readyPage [⟨"Asha Rao", "", "5K"⟩]) "" =
        ({ readyPage [⟨"Asha Rao", "", "5K"⟩] with
            results := [⟨"Please enter a Bib Number to search", .warning⟩] }, none)) := by
  have hab : ∀ U : CaseMapping, U.toUpperCase (trim "ab1") = asciiCase.toUpperCase (trim "ab1") :=
    fun U => toUpperCase_ascii U (trim "ab1") (by decide)
  have hemp : ∀ U : CaseMapping, U.toUpperCase (trim "") = asciiCase.toUpperCase (trim "") :=
    fun U => toUpperCase_ascii U (trim "") (by decide)
  refine ⟨fun U => ⟨?_, ?_⟩, fun U => ?_, fun U => ?_⟩
  · rw [hab U]; rfl
  · rw [performCertificateSearch_congr U asciiCase _ _ _ (hab U)]; rfl
  · rw [performCertificateSearch_congr U asciiCase _ _ _ (hab U)]; rfl
  · rw [performCertificateSearch_congr U asciiCase _ _ _ (hemp U)]; rfl

/-- C1, amended: in a ready directory that is a list, for an entry whose
stored identifier is non-empty and already trimmed and in upper case, with no
`null` entry before it, every input equal to that identifier up to letter case
is found: the lookup of `performCertificateSearch`, on the trimmed, uppercased
input, returns an entry with that identifier, and the search goes on to render
it instead of reporting not-found. -/
theorem lookup_case_insensitive (U : CaseMapping) (s : State) (pre post : List JSValue)
    (p : JSValue) (b value : String)
    (hready : s.dataLoaded = true) (hdir : s.participants = .arr (pre ++ p :: post))
    (hpre : ∀ q ∈ pre, q.isNullish = false) (hp : p.get "bib" = .ok (.str b))
    (hnorm : U.toUpperCase (trim b) = b) (hne : b ≠ "")
    (hcase : U.toUpperCase value = U.toUpperCase b) :
    ∃ found, found.get "bib" = .ok (.str b) ∧ found ∈ pre ++ p :: post ∧
      performCertificateSearch U false s value =
        ({ s with
            results := [],
            searchBtnDisabled := true, spinnerHidden := false, bibInputDisabled := true,
            calls := s.calls ++ [.showLoading, .delay 800, .find b, .generateCertificate] },
          some ⟨found, false⟩) := by
  have hb : U.toUpperCase (trim value) = b := by
    rw [U.trim_comm, hcase, ← U.trim_comm, hnorm]
  obtain ⟨found, h1, h2, _, h4⟩ := performCertificateSearch_found U s pre post p value hready
    hdir hpre (by rw [hb]; exact hp) (by rw [hb]; exact hne)
  rw [hb] at h1 h4
  refine ⟨found, h1, h2, ?_⟩
  rw [h4]
  simp [showLoading, clearResults, State.called]

/-- The input "ab1" against a stored "AB1", behind a record without category. -/
theorem lookup_case_insensitive_witness :
    ∃ found, found.get "bib" = .ok (.str "AB1") ∧
      found ∈ [JSValue.obj [("name", .str "Jane Doe"), ("bib", .str "001")]] ++
        (⟨"Asha Rao", "AB1", "10K"⟩ : ParticipantRecord).toJS :: [] ∧
      performCertificateSearch asciiCase false
          (loadedPage (.arr ([JSValue.obj [("name", .str "Jane Doe"), ("bib", .str "001")]] ++
            (⟨"Asha Rao", "AB1", "10K"⟩ : ParticipantRecord).toJS :: []))) "ab1" =
        ({ loadedPage (.arr ([JSValue.obj [("name", .str "Jane Doe"), ("bib", .str "001")]] ++
            (⟨"Asha Rao", "AB1", "10K"⟩ : ParticipantRecord).toJS :: [])) with
            results := [],
            searchBtnDisabled := true, spinnerHidden := false, bibInputDisabled := true,
            calls := (loadedPage (.arr ([JSValue.obj [("name", .str "Jane Doe"),
              ("bib", .str "001")]] ++
              (⟨"Asha Rao", "AB1", "10K"⟩ : ParticipantRecord).toJS :: []))).calls ++
              [.showLoading, .delay 800, .find "AB1", .generateCertificate] },
          some ⟨found, false⟩) :=
  lookup_case_insensitive asciiCase
    (loadedPage (.arr ([JSValue.obj [("name", .str "Jane Doe"), ("bib", .str "001")]] ++
      (⟨"Asha Rao", "AB1", "10K"⟩ : ParticipantRecord).toJS :: [])))
    [JSValue.obj [("name", .str "Jane Doe"), ("bib", .str "001")]] []
    (⟨"Asha Rao", "AB1", "10K"⟩ : ParticipantRecord).toJS "AB1" "ab1" rfl rfl
    (by intro q hq; simp only [List.mem_singleton] at hq; subst hq; rfl)
    rfl (by decide) (by decide) (by decide)

/-- C5, counterexample: a record whose identifier is the empty string, and the
empty input, whose trimmed, uppercased form is that identifier: the search
ends with the missing-identifier warning and nothing is downloaded; and the
record "001" behind a `null` entry, and the input "001": the lookup throws,
the search ends with the generic error and nothing is downloaded. -/
theorem empty_identifier_never_found :
    (∀ U : CaseMapping,
      U.toUpperCase (trim "") = (⟨"Jane Doe", "", "5K"⟩ : ParticipantRecord).bib ∧
      (search U tenPerPx false (readyPage [⟨"Jane Doe", "", "5K"⟩]) ""
        [.onload .none, .timeout .none]).results =
          [⟨"Please enter a Bib Number to search", .warning⟩] ∧
      (search U tenPerPx false (readyPage [⟨"Jane Doe", "", "5K"⟩]) ""
        [.onload .none, .timeout .none]).downloads = []) ∧
    (∀ U : CaseMapping,
      U.toUpperCase (trim "001") = janeDoe.bib ∧
      (search U tenPerPx false (loadedPage (.arr [.null, janeDoe.toJS])) "001"
        [.onload .none, .timeout .none]).results =
          [⟨"An error occurred while generating your certificate. Please try again or contact support.",
            .error⟩] ∧
      (search U tenPerPx false (loadedPage (.arr [.null, janeDoe.toJS])) "001"
        [.onload .none, .timeout .none]).downloads = []) := by
  have h001 : ∀ U : CaseMapping, U.toUpperCase (trim "001") = asciiCase.toUpperCase (trim "001") :=
    fun U => toUpperCase_ascii U (trim "001") (by decide)
  have hemp : ∀ U : CaseMapping, U.toUpperCase (trim "") = asciiCase.toUpperCase (trim "") :=
    fun U => toUpperCase_ascii U (trim "") (by decide)
  refine ⟨fun U => ?_, fun U => ?_⟩
  · rw [search_congr U asciiCase _ _ _ _ _ (hemp U), hemp U]
    exact ⟨by decide, by decide, by decide⟩
  · rw [search_congr U asciiCase _ _ _ _ _ (h001 U), h001 U]
    exact ⟨by decide, by decide, by decide⟩

/-- C5, amended: in a ready directory that is a list holding an entry with the
non-empty identifier `b` and no `null` entry before it, for every input whose
trimmed, uppercased form is `b`, when no drawing or export step throws, the
search has, once a callback has run, the success notification, and every
download it made (at least one) is named
`Sadri-Marathon-2025-Certificate-Bib-` then `b` then `.png`. -/
theorem end_to_end_success (U : CaseMapping) (measureText : String → Nat → ℚ) (s : State)
    (pre post : List JSValue) (p : JSValue) (b value : String) (callbacks : List Callback)
    (hready : s.dataLoaded = true) (hdir : s.participants = .arr (pre ++ p :: post))
    (hpre : ∀ q ∈ pre, q.isNullish = false) (hp : p.get "bib" = .ok (.str b))
    (hne : b ≠ "") (hb : U.toUpperCase (trim value) = b)
    (hfaults : ∀ c ∈ callbacks, c.fault = .none) (hrun : callbacks ≠ []) :
    (search U measureText false s value callbacks).results =
      [⟨"Certificate downloaded successfully!", .success⟩] ∧
    ∃ n, 1 ≤ n ∧ (search U measureText false s value callbacks).downloads =
      s.downloads ++
        List.replicate n ("Sadri-Marathon-2025-Certificate-Bib-" ++ b ++ ".png") := by
  obtain ⟨found, h1, _, h3, h4⟩ := performCertificateSearch_found U s pre post p value hready
    hdir hpre (by rw [hb]; exact hp) (by rw [hb]; exact hne)
  rw [hb] at h1
  obtain ⟨r1, ⟨n, hn, hd⟩, _, _⟩ := search_success_of_pending U measureText false s _ value
    callbacks found (.str b) h4 h3 h1 hfaults hrun
  exact ⟨r1, n, hn, hd⟩

/-- The input "  001  " against a stored "001", image loaded before the timer. -/
theorem end_to_end_success_witness :
    (search asciiCase tenPerPx false (readyPage [janeDoe]) "  001  "
      [.onload .none, .timeout .none]).results =
      [⟨"Certificate downloaded successfully!", .success⟩] ∧
    ∃ n, 1 ≤ n ∧ (search asciiCase tenPerPx false (readyPage [janeDoe]) "  001  "
      [.onload .none, .timeout .none]).downloads =
      (readyPage [janeDoe]).downloads ++
        List.replicate n ("Sadri-Marathon-2025-Certificate-Bib-" ++ "001" ++ ".png") :=
  end_to_end_success asciiCase tenPerPx (readyPage [janeDoe]) [] [] janeDoe.toJS "001" "  001  "
    [.onload .none, .timeout .none] rfl rfl (by simp) rfl (by decide) (by decide) (by decide)
    (by decide)

/-! ## The image and the timer -/

/-- C2, the code at the failing inputs: when the image fails to load and the
timer then fires, and when the image loads after the timer has fired,
`drawCertificate` is entered twice and the certificate is downloaded twice;
only a load before the timer gives one drawing. -/
theorem drawCertificate_runs_twice :
    schedule [.onerror .none, .timeout .none] = true ∧
    drawCount (search asciiCase tenPerPx false (readyPage [janeDoe]) "001"
      [.onerror .none, .timeout .none]).calls = 2 ∧
    (search asciiCase tenPerPx false (readyPage [janeDoe]) "001"
      [.onerror .none, .timeout .none]).downloads =
      ["Sadri-Marathon-2025-Certificate-Bib-001.png",
        "Sadri-Marathon-2025-Certificate-Bib-001.png"] ∧
    schedule [.timeout .none, .onload .none] = true ∧
    drawCount (search asciiCase tenPerPx false (readyPage [janeDoe]) "001"
      [.timeout .none, .onload .none]).calls = 2 ∧
    (search asciiCase tenPerPx false (readyPage [janeDoe]) "001"
      [.timeout .none, .onload .none]).calls.filter
        (fun c => match c with | .drawCertificate _ => true | _ => false) =
      [.drawCertificate false, .drawCertificate true] ∧
    schedule [.onload .none, .timeout .none] = true ∧
    drawCount (search asciiCase tenPerPx false (readyPage [janeDoe]) "001"
      [.onload .none, .timeout .none]).calls = 1 := by
  refine ⟨by decide, by decide, by decide, by decide, by decide, by decide, by decide,
    by decide⟩

/-! ## Loading the directory -/

/-- C8, counterexample: a payload that parses to a list holding `null`, which
is no list of records: the directory is ready but holds one entry, and the
later search for "001" ends with the generic error, not with not-found. -/
theorem loadParticipants_keeps_malformed_payload :
    (loadParticipants (moduleInit (readyPage [])) (.parsed (.arr [.null]))).dataLoaded = true ∧
    (loadParticipants (moduleInit (readyPage [])) (.parsed (.arr [.null]))).participants =
      .arr [.null] ∧
    (loadParticipants (moduleInit (readyPage [])) (.parsed (.arr [.null]))).participants ≠
      .arr [] ∧
    ∀ U : CaseMapping,
      (search U tenPerPx false
        (loadParticipants (moduleInit (readyPage [])) (.parsed (.arr [.null]))) "001"
        [.timeout .none]).results =
        [⟨"An error occurred while generating your certificate. Please try again or contact support.",
          .error⟩] := by
  refine ⟨rfl, rfl, ?_, fun U => ?_⟩
  · intro h
    simp [loadParticipants, moduleInit, JSValue.isNullish] at h
  · rw [search_congr U asciiCase _ _ _ _ _ (toUpperCase_ascii U (trim "001") (by decide))]
    decide

/-- C8, amended: every outcome of `loadParticipants` leaves the directory
ready. When the fetch throws, the response is not OK, or the body fails to
parse, the directory has zero records, and a later search for a non-empty
identifier reports not-found. When the body parses to anything but `null`,
the directory holds the parsed value, whatever it is. -/
theorem loadParticipants_fail_open (page : State) (outcome : FetchOutcome) :
    (loadParticipants (moduleInit page) outcome).dataLoaded = true ∧
    (∀ data, outcome = .parsed data → data.isNullish = false →
      (loadParticipants (moduleInit page) outcome).participants = data) ∧
    ((∀ data, outcome ≠ .parsed data) →
      (loadParticipants (moduleInit page) outcome).participants = .arr [] ∧
      ∀ (U : CaseMapping) (measureText : String → Nat → ℚ) (setupThrows : Bool)
        (value : String) (callbacks : List Callback), U.toUpperCase (trim value) ≠ "" →
        (search U measureText setupThrows (loadParticipants (moduleInit page) outcome) value
          callbacks).results =
          [⟨"No participant found with Bib Number \"" ++ U.toUpperCase (trim value) ++
            "\". Please verify your Bib Number and try again.", .error⟩]) := by
  refine ⟨?_, ?_, ?_⟩
  · cases outcome with
    | parsed data => cases data <;> rfl
    | fetchThrows => rfl
    | notOk => rfl
    | jsonThrows => rfl
  · rintro data rfl hdata
    simp [loadParticipants, hdata]
  · intro hfail
    have hp : (loadParticipants (moduleInit page) outcome).participants = .arr [] := by
      cases outcome with
      | parsed data => exact absurd rfl (hfail data)
      | fetchThrows => rfl
      | notOk => rfl
      | jsonThrows => rfl
    have hd : (loadParticipants (moduleInit page) outcome).dataLoaded = true := by
      cases outcome with
      | parsed data => exact absurd rfl (hfail data)
      | fetchThrows => rfl
      | notOk => rfl
      | jsonThrows => rfl
    refine ⟨hp, ?_⟩
    intro U measureText setupThrows value callbacks hne
    have hpcs := performCertificateSearch_started U setupThrows _ value hne hd
    rw [hp] at hpcs
    have hfind : find (.arr []) (U.toUpperCase (trim value)) = .ok none := rfl
    rw [hfind] at hpcs
    simp only at hpcs
    unfold search
    rw [hpcs]
    simp [showMessage, clearResults, kindOf]

/-- A response that is not OK, then a search for "001". -/
theorem loadParticipants_fail_open_witness :
    (loadParticipants (moduleInit (readyPage [janeDoe])) .notOk).participants = .arr [] ∧
    (search asciiCase tenPerPx false (loadParticipants (moduleInit (readyPage [janeDoe])) .notOk)
      "001" [.timeout .none]).results =
      [⟨"No participant found with Bib Number \"" ++ asciiCase.toUpperCase (trim "001") ++
        "\". Please verify your Bib Number and try again.", .error⟩] :=
  have h := (loadParticipants_fail_open (readyPage [janeDoe]) .notOk).2.2
    (by intro data h; cases h)
  ⟨h.1, h.2 asciiCase tenPerPx false "001" [.timeout .none] (by decide)⟩

/-! ## Notifications -/

theorem performCertificateSearch_results (U : CaseMapping) (setupThrows : Bool) (s : State)
    (value : String) :
    (performCertificateSearch U setupThrows s value).1.results.length ≤ 1 := by
  by_cases hne : U.toUpperCase (trim value) = ""
  · unfold performCertificateSearch
    simp [hne, showMessage, clearResults]
  · cases hready : s.dataLoaded with
    | false =>
      unfold performCertificateSearch
      simp [hne, hready, showMessage, clearResults]
    | true =>
      rw [performCertificateSearch_started U setupThrows s value hne hready]
      cases find s.participants (U.toUpperCase (trim value)) with
      | error e => simp [showMessage, clearResults]
      | ok found =>
        cases found with
        | none => simp [showMessage, clearResults]
        | some p =>
          cases setupThrows <;>
            simp [generateCertificate, showMessage, hideLoading, showLoading, clearResults,
              State.called]

/-- A search that shows the success notification had its input past both
guards, its lookup returned a participant, and a render of it was started. -/
theorem pending_of_success (U : CaseMapping) (measureText : String → Nat → ℚ)
    (setupThrows : Bool) (s : State) (value : String) (callbacks : List Callback)
    (h : (search U measureText setupThrows s value callbacks).results =
      [⟨"Certificate downloaded successfully!", .success⟩]) :
    U.toUpperCase (trim value) ≠ "" ∧ s.dataLoaded = true ∧
    ∃ found, find s.participants (U.toUpperCase (trim value)) = .ok (some found) := by
  by_cases hne : U.toUpperCase (trim value) = ""
  · exfalso
    unfold search performCertificateSearch at h
    simp [hne, showMessage, clearResults, kindOf] at h
  · cases hready : s.dataLoaded with
    | false =>
      exfalso
      unfold search performCertificateSearch at h
      simp [hne, hready, showMessage, clearResults, kindOf] at h
    | true =>
      refine ⟨hne, rfl, ?_⟩
      unfold search at h
      rw [performCertificateSearch_started U setupThrows s value hne hready] at h
      cases hfind : find s.participants (U.toUpperCase (trim value)) with
      | error e =>
        rw [hfind] at h
        simp [showMessage, clearResults, kindOf] at h
      | ok found =>
        cases found with
        | none =>
          rw [hfind] at h
          simp [showMessage, clearResults, kindOf] at h
        | some p => exact ⟨p, rfl⟩

/-- C9: `showMessage` leaves exactly one notification, of the kind asked for;
`showLoading` and `clearResults` leave none and `hideLoading` leaves what was
there; whatever was shown before, `performCertificateSearch` ends with at most
one notification, each callback keeps it at most one, and so a search holds at
most one after any number of its callbacks; and when a search has ended with
the success notification, a second search for the same input, once a callback
of its has run and with no step throwing, ends with the same single success
notification. -/
theorem single_notification (U : CaseMapping) (measureText : String → Nat → ℚ) :
    (∀ (s : State) (message type : String),
      (showMessage s message type).results = [⟨message, kindOf type⟩]) ∧
    (kindOf "warning" = .warning ∧ kindOf "error" = .error ∧ kindOf "success" = .success) ∧
    (∀ s : State, (showLoading s).results = []) ∧
    (∀ s : State, (clearResults s).results = []) ∧
    (∀ s : State, (hideLoading s).results = s.results) ∧
    (∀ (setupThrows : Bool) (s : State) (value : String),
      (performCertificateSearch U setupThrows s value).1.results.length ≤ 1) ∧
    (∀ (sr : State × Render) (c : Callback), sr.1.results.length ≤ 1 →
      (fire measureText sr c).1.results.length ≤ 1) ∧
    (∀ (setupThrows : Bool) (s : State) (value : String) (callbacks : List Callback),
      (search U measureText setupThrows s value callbacks).results.length ≤ 1) ∧
    (∀ (setupThrows : Bool) (s : State) (value : String) (first second : List Callback),
      (search U measureText setupThrows s value first).results =
        [⟨"Certificate downloaded successfully!", .success⟩] →
      (∀ c ∈ second, c.fault = .none) → second ≠ [] →
      (search U measureText false (search U measureText setupThrows s value first) value
        second).results = [⟨"Certificate downloaded successfully!", .success⟩]) := by
  refine ⟨fun _ _ _ => rfl, by decide, fun _ => rfl, fun _ => rfl, fun _ => rfl,
    performCertificateSearch_results U, fun sr c => (fire_frame measureText sr c).2.2.2.1, ?_, ?_⟩
  · intro setupThrows s value callbacks
    have h := performCertificateSearch_results U setupThrows s value
    unfold search
    rcases hp : performCertificateSearch U setupThrows s value with ⟨s1, pending⟩
    rw [hp] at h
    cases pending with
    | none => exact h
    | some r => exact (runCallbacks_frame measureText callbacks (s1, r)).2.2.2.1 h
  · intro setupThrows s value first second hfirst hfaults hrun
    obtain ⟨hne, hready, found, hfind⟩ :=
      pending_of_success U measureText setupThrows s value first hfirst
    -- the first search leaves the directory as it was
    have hframe : (search U measureText setupThrows s value first).participants = s.participants ∧
        (search U measureText setupThrows s value first).dataLoaded = s.dataLoaded := by
      unfold search
      rcases hp : performCertificateSearch U setupThrows s value with ⟨s1, pending⟩
      have hs1 : s1.participants = s.participants ∧ s1.dataLoaded = s.dataLoaded := by
        have e : s1 = (performCertificateSearch U setupThrows s value).1 := by rw [hp]
        rw [e, performCertificateSearch_started U setupThrows s value hne hready, hfind]
        cases setupThrows <;>
          simp [generateCertificate, showMessage, hideLoading, showLoading, clearResults,
            State.called]
      cases pending with
      | none => exact hs1
      | some r =>
        obtain ⟨f1, f2, _⟩ := runCallbacks_frame measureText first (s1, r)
        exact ⟨f1.trans hs1.1, f2.trans hs1.2⟩
    obtain ⟨items, hitems⟩ : ∃ items, s.participants = .arr items := by
      cases hpart : s.participants with
      | arr items => exact ⟨items, rfl⟩
      | undefined => rw [hpart] at hfind; simp [find] at hfind
      | null => rw [hpart] at hfind; simp [find] at hfind
      | bool b => rw [hpart] at hfind; simp [find] at hfind
      | num t => rw [hpart] at hfind; simp [find] at hfind
      | str t => rw [hpart] at hfind; simp [find] at hfind
      | obj fields => rw [hpart] at hfind; simp [find] at hfind
    rw [hitems] at hfind
    have hbib := (findLoop_some_bib _ _ _ hfind).1
    have hnn := findLoop_some_not_nullish _ _ _ hfind
    have hpcs2 := performCertificateSearch_started U false
      (search U measureText setupThrows s value first) value hne (hframe.2.trans hready)
    rw [hframe.1, hitems] at hpcs2
    have hfind2 : find (.arr items) (U.toUpperCase (trim value)) = .ok (some found) := hfind
    rw [hfind2] at hpcs2
    simp only [generateCertificate, Bool.false_eq_true, if_false] at hpcs2
    exact (search_success_of_pending U measureText false _ _ value second found _ hpcs2 hnn hbib
      hfaults hrun).1

/-- Two searches for "001" in a row. -/
theorem single_notification_witness :
    (search asciiCase tenPerPx false
      (search asciiCase tenPerPx false (readyPage [janeDoe]) "001"
        [.onerror .none, .timeout .none])
      "001" [.timeout .none, .onload .none]).results =
      [⟨"Certificate downloaded successfully!", .success⟩] :=
  (single_notification asciiCase tenPerPx).2.2.2.2.2.2.2.2 false (readyPage [janeDoe]) "001"
    [.onerror .none, .timeout .none] [.timeout .none, .onload .none]
    (by decide) (by decide) (by decide)

end Marathon
